import Mathlib

/-!
Verification development for `dcman.py` (Docker Compose Manager).

The development shallowly embeds the process-orchestration core of the
source file:

* `run_docker_command` embeds `DockerComposeManager.run_docker_command_async`
  (src/dcman.py lines 52-139).  The behaviour of the external process is an
  explicit parameter (`Launch` / `ProcBehavior`): the decoded content of the
  lines appearing on the (possibly merged) stdout pipe, the time each
  `readline` takes to return, the time to EOF and to process exit, the raw
  stderr content and the exit code.  `asyncio.wait_for(..., timeout=t)`
  is modelled as: the awaited step completes iff its duration is at most `t`.
* `get_service_status` embeds `get_service_status_async` (lines 170-200),
  with the outcomes of its two external commands as parameters.
* `execute_action`, `build_streaming`, `get_service_logs` embed
  `execute_action_async` (202-230), `build_service_streaming_async`
  (257-288) and `get_service_logs_async` (290-312).
* `AppState`, `get_selected`, `rebuild_table`, `mark_for_action`,
  `perform_action`, `perform_build`, `action_toggle_service` and
  `refresh_services` embed the corresponding methods of
  `DockerComposeManagerApp` (lines 617-859).  The `await`/`gather`
  structure of the source is rendered as compute-all-results-then-assign,
  matching the fan-out/fan-in order of the code; external commands issued
  are collected in an explicit `ExtCall` trace.

Python's `str.strip()` is rendered as `pyStrip`, f-strings as `++` of
their parts, and a `dict` as an insertion-ordered association list.
-/

/-- One event observed during a streaming read loop: a line was read from
the pipe, a line was handed to the stream callback, or EOF was reached. -/
inductive Ev where
  | read (line : String)
  | sink (line : String)
  | eof
  deriving Repr, DecidableEq

/-- Behaviour of a successfully launched external process, as observed
through the pipes `run_docker_command_async` sets up.  `timedLines` are the
successive `readline` results on the stdout pipe (merged with stderr when
`combine_stderr` was requested): for each, the seconds that `readline` call
takes to return, and the decoded content.  `eofDelta` is the duration of the
final `readline` that returns empty (EOF), `waitDelta` the further time
until the process can be reaped, `stderrOut` the decoded content of the
separate stderr pipe (when one exists) and `exitCode` the process exit
code. -/
structure ProcBehavior where
  timedLines : List (Nat × String)
  eofDelta : Nat
  waitDelta : Nat
  stderrOut : String
  exitCode : Int
  deriving Repr, DecidableEq

/-- Outcome of `asyncio.create_subprocess_exec`: either the launch itself
raises (executable missing, ...), carrying the exception text, or the
process starts and behaves as described. -/
inductive Launch where
  | failure (msg : String)
  | ok (b : ProcBehavior)
  deriving Repr, DecidableEq

/-- Result of `run_docker_command_async`: the returned triple, plus the
trace of read/sink events that happened while it ran (the calls made to
`stream_callback` are side effects visible to the caller). -/
structure RunOutput where
  returncode : Int
  stdout : String
  stderr : String
  events : List Ev
  deriving Repr, DecidableEq

/-- Diagnostic message of the `asyncio.TimeoutError` handler
(src/dcman.py line 128). -/
def timeoutMsg (t : Nat) : String :=
  "Command timed out after " ++ toString t ++ " seconds"

/-- `deque` append: with `maxlen = k` the deque keeps the last `k`
elements, silently dropping from the left; without `maxlen` it grows. -/
def takeLast {α : Type} (k : Nat) (xs : List α) : List α :=
  xs.drop (xs.length - k)

/-- `lines.append(decoded_line)` on the buffer deque of
`run_docker_command_async` (line 99): bounded deques keep the last `k`
elements. -/
def pushCap : Option Nat → List String → String → List String
  | none, buf, l => buf ++ [l]
  | some k, buf, l => takeLast k (buf ++ [l])

/-- The streaming read loop (src/dcman.py lines 91-103): each iteration
awaits `readline()` under `asyncio.wait_for(..., timeout=t)`; a line whose
arrival takes more than `t` raises `TimeoutError` and ends the call.
Otherwise the decoded line is appended to the bounded buffer and, when a
callback is present, forwarded to it before the next read.  Returns the
final buffer, the event trace, and whether the loop timed out. -/
def readLines (t : Nat) (cap : Option Nat) (cb : Bool) :
    List (Nat × String) → List String → List Ev →
    List String × List Ev × Bool
  | [], buf, evs => (buf, evs, false)
  | (d, l) :: rest, buf, evs =>
    if t < d then (buf, evs, true)
    else readLines t cap cb rest (pushCap cap buf l)
      (evs ++ Ev.read l :: (if cb then [Ev.sink l] else []))

/-- Total duration of the process as observed by `process.communicate()`:
all output arrives, EOF is reached and the process exits. -/
def normalRunDuration (b : ProcBehavior) : Nat :=
  (b.timedLines.map Prod.fst).sum + b.eofDelta + b.waitDelta

/-- The full stdout-pipe content, as `communicate()` returns it. -/
def normalStdout (b : ProcBehavior) : String :=
  String.join (b.timedLines.map Prod.snd)

/-- The `maxlen` of the buffer deque at src/dcman.py line 88:
`deque(maxlen=max_lines) if max_lines else deque()` — bounded only when
`max_lines` is truthy, so `max_lines = 0` leaves the deque unbounded. -/
def capOf : Option Nat → Option Nat
  | some k => if k = 0 then none else some k
  | none => none

/-- Embedding of `DockerComposeManager.run_docker_command_async`
(src/dcman.py lines 52-139).  `t` is the timeout, `cb` whether a
`stream_callback` is given, `ml` the `max_lines` argument, `cs` the
`combine_stderr` flag.  Streaming mode is entered when a callback or a
line bound is given (line 86); the buffer deque is bounded by `capOf ml`.
On `TimeoutError` the handler at lines 124-128 returns
`(-1, "", timeoutMsg t)`; a launch failure is caught at line 138 and
returned as `(-1, "", str(e))`. -/
def run_docker_command (t : Nat) (cb : Bool) (ml : Option Nat) (cs : Bool) :
    Launch → RunOutput
  | Launch.failure msg =>
    { returncode := -1, stdout := "", stderr := msg, events := [] }
  | Launch.ok b =>
    if cb = true ∨ ml ≠ none then
      let r := readLines t (capOf ml) cb b.timedLines [] []
      if r.2.2 = true then
        { returncode := -1, stdout := "", stderr := timeoutMsg t,
          events := r.2.1 }
      else if t < b.eofDelta then
        { returncode := -1, stdout := "", stderr := timeoutMsg t,
          events := r.2.1 }
      else
        { returncode := b.exitCode, stdout := String.join r.1, stderr := "",
          events := r.2.1 ++ [Ev.eof] }
    else
      if t < normalRunDuration b then
        { returncode := -1, stdout := "", stderr := timeoutMsg t,
          events := [] }
      else
        { returncode := b.exitCode, stdout := normalStdout b,
          stderr := if cs then "" else b.stderrOut, events := [] }

example :
    run_docker_command 5 true none false
      (Launch.ok ⟨[(1, "a\n"), (9, "b\n")], 0, 0, "", 0⟩)
    = ⟨-1, "", timeoutMsg 5, [Ev.read "a\n", Ev.sink "a\n"]⟩ := by decide

example :
    run_docker_command 5 true none false
      (Launch.ok ⟨[(4, "a\n"), (4, "b\n")], 1, 0, "", 0⟩)
    = ⟨0, "a\nb\n", "",
        [Ev.read "a\n", Ev.sink "a\n", Ev.read "b\n", Ev.sink "b\n", Ev.eof]⟩ := by
  decide

example :
    run_docker_command 5 false (some 2) false
      (Launch.ok ⟨[(0, "1\n"), (0, "2\n"), (0, "3\n")], 0, 0, "", 0⟩)
    = ⟨0, "2\n3\n", "", [Ev.read "1\n", Ev.read "2\n", Ev.read "3\n", Ev.eof]⟩ := by
  decide

example :
    run_docker_command 5 false (some 0) false
      (Launch.ok ⟨[(0, "a\n")], 0, 0, "", 0⟩)
    = ⟨0, "a\n", "", [Ev.read "a\n", Ev.eof]⟩ := by decide

example :
    run_docker_command 60 false none false (Launch.failure "docker: not found")
    = ⟨-1, "", "docker: not found", []⟩ := by decide

example :
    run_docker_command 60 false none false
      (Launch.ok ⟨[(0, "out")], 0, 0, "err", 3⟩)
    = ⟨3, "out", "err", []⟩ := by decide

/-- Python's `str.strip()`: remove leading and trailing whitespace.
Written over the character list so that it evaluates inside the kernel. -/
def pyStrip (s : String) : String :=
  ⟨((s.data.dropWhile Char.isWhitespace).reverse.dropWhile
      Char.isWhitespace).reverse⟩

example : pyStrip " abc123\n" = "abc123" := by decide

example : pyStrip "\n  \n" = "" := by decide

/-- Embedding of `get_service_status_async` (src/dcman.py lines 170-200).
`o1` is the outcome of `docker compose ps -q <service>`, `o2` the outcome
of `docker inspect -f ... <id>`; both run with `timeout=5` in normal
(non-streaming) mode.  A first command that exits non-zero or prints
nothing (after stripping) yields `"stopped"` without issuing the second
command; otherwise the second command's stripped stdout is returned,
`"unknown"` when it is empty.  The `except Exception` wrapper at line 199
never fires in this model because `run_docker_command` is total. -/
def get_service_status (o1 o2 : Launch) : String :=
  let r1 := run_docker_command 5 false none false o1
  if r1.returncode ≠ 0 ∨ pyStrip r1.stdout = "" then "stopped"
  else
    let r2 := run_docker_command 5 false none false o2
    if pyStrip r2.stdout = "" then "unknown" else pyStrip r2.stdout

example : get_service_status (Launch.failure "no docker") (Launch.failure "x")
    = "stopped" := by decide

example :
    get_service_status (Launch.ok ⟨[(0, "abc123\n")], 0, 0, "", 0⟩)
      (Launch.ok ⟨[(0, "running\n")], 0, 0, "", 0⟩) = "running" := by decide

example :
    get_service_status (Launch.ok ⟨[(0, "abc123\n")], 0, 0, "", 0⟩)
      (Launch.failure "inspect gone") = "unknown" := by decide

example :
    get_service_status (Launch.ok ⟨[], 0, 0, "", 0⟩)
      (Launch.failure "x") = "stopped" := by decide

/-- External commands issued by the orchestrator, at the granularity the
claims speak about: one action command (`docker compose up -d` / `stop` /
`restart`), one build command (`docker compose build`), or one status
query (the `ps -q` / `inspect` pair of `get_service_status_async`), each
against a `(project_path, service)` target. -/
inductive ExtCall where
  | action (project_path name act : String)
  | build (project_path name : String)
  | statusQuery (project_path name : String)
  deriving Repr, DecidableEq

/-- Embedding of `execute_action_async` (src/dcman.py lines 202-230).
Returns the `(success, message)` pair together with the action command it
issued (none for an unknown action, which returns before launching
anything). -/
def execute_action (project_path name act : String) (env : Launch) :
    Bool × String × List ExtCall :=
  if act = "start" ∨ act = "stop" ∨ act = "restart" then
    let r := run_docker_command 60 false none false env
    if r.returncode = 0 then
      (true, "Successfully " ++ act ++ "ed " ++ name,
        [ExtCall.action project_path name act])
    else
      (false, "Error: " ++ r.stderr, [ExtCall.action project_path name act])
  else
    (false, "Unknown action: " ++ act, [])

/-- Lines handed to the stream callback, extracted from an event trace. -/
def sinkLines : List Ev → List String
  | [] => []
  | Ev.sink l :: rest => l :: sinkLines rest
  | _ :: rest => sinkLines rest

/-- Embedding of `build_service_streaming_async` (src/dcman.py lines
257-288): a 300s streaming run with `max_lines=200` and merged stderr.
Returns `(success, message)` and the run's output (whose sink events are
what the `log_callback` received). -/
def build_streaming (env : Launch) (name : String) :
    Bool × String × RunOutput :=
  let r := run_docker_command 300 true (some 200) true env
  if r.returncode = 0 then (true, "Successfully built " ++ name, r)
  else (false, "Build failed with exit code " ++ toString r.returncode, r)

/-- Embedding of `get_service_logs_async` (src/dcman.py lines 290-312): a
10s run with `max_lines=tail` (hence in streaming mode), returning the
captured text, a placeholder when there was none, or an error message
built from the returned stderr. -/
def get_service_logs (tail : Nat) (env : Launch) : String :=
  let r := run_docker_command 10 false (some tail) false env
  if r.returncode = 0 then
    if r.stdout ≠ "" then r.stdout else "No logs available"
  else "Error fetching logs: " ++ r.stderr

/-- Embedding of the `Service` dataclass (src/dcman.py lines 33-47).
Paths are strings here. -/
structure Service where
  name : String
  project_name : String
  project_path : String
  compose_file : String
  status : String := "unknown"
  deriving Repr, DecidableEq

/-- Outcomes of the two status-query commands, per
`(project_path, service_name)` target: the environment against which
`get_service_status_async` runs. -/
def StatusEnv : Type := String → String → Launch × Launch

/-- `self.manager.get_service_status_async(project_path, name)` under a
given environment. -/
def queryStatus (sEnv : StatusEnv) (project_path name : String) : String :=
  get_service_status (sEnv project_path name).1 (sEnv project_path name).2

/-- Embedding of `refresh_services_async` (src/dcman.py lines 666-684) on
a list of services: `asyncio.gather` first produces one
`(service, status)` result per service (fan-out / fan-in), and only then
does the update loop assign each service its own result.  Also returns the
status queries issued, one per service. -/
def refresh_services (sEnv : StatusEnv) (ss : List Service) :
    List Service × List ExtCall :=
  let results := ss.map (fun s => (s, queryStatus sEnv s.project_path s.name))
  (results.map (fun r => { r.1 with status := r.2 }),
    ss.map (fun s => ExtCall.statusQuery s.project_path s.name))

/-- Net effect of `refresh_project_status_async` (lines 686-692) on the
full registry: the services of the project (a filtered view sharing its
objects with `self.services`) each receive the result of their own status
query; every other slot is untouched. -/
def refresh_in_place (sEnv : StatusEnv) (services : List Service)
    (pname : String) : List Service :=
  services.map (fun x =>
    if x.project_name = pname then
      { x with status := queryStatus sEnv x.project_path x.name }
    else x)

/-- Insertion-ordered dict write, `d[k] = v`. -/
def dictSet (d : List (String × String)) (k v : String) :
    List (String × String) :=
  if d.any (fun p => p.1 = k) then
    d.map (fun p => if p.1 = k then (k, v) else p)
  else d ++ [(k, v)]

/-- `del d[k]`. -/
def dictDel (d : List (String × String)) (k : String) :
    List (String × String) :=
  d.filter (fun p => ¬ p.1 = k)

/-- The mutable state of `DockerComposeManagerApp` that the claims are
about: the service registry, the table cursor and row count, the status
bar and the build-log store. -/
structure AppState where
  services : List Service
  cursorRow : Nat
  rowCount : Nat
  statusMsg : String
  buildLogs : List (String × String)
  deriving Repr, DecidableEq

/-- Embedding of `rebuild_table` (src/dcman.py lines 629-651): the table is
rebuilt from `self.services` in order and the cursor clamped back into
range.  Only the table fields change; the registry itself is untouched. -/
def rebuild_table (st : AppState) : AppState :=
  let oldCursor := if 0 < st.rowCount then st.cursorRow else 0
  let n := st.services.length
  { st with rowCount := n,
            cursorRow := if 0 < n then min oldCursor (n - 1) else 0 }

/-- Embedding of `get_selected_service` (lines 721-732): `None` on an
empty table or an out-of-range cursor, otherwise the service at the cursor
row (returned here together with its index, which is how the source
addresses the same object later). -/
def get_selected (st : AppState) : Option (Nat × Service) :=
  if st.rowCount = 0 then none
  else if h : st.cursorRow < st.services.length then
    some (st.cursorRow, st.services.get ⟨st.cursorRow, h⟩)
  else none

/-- The pre-dispatch marking of `perform_action` (lines 755-763): on
`start` every service of the target's project is set to `loading`; on any
other action only the selected slot is. -/
def mark_for_action (services : List Service) (i : Nat) (service : Service)
    (act : String) : List Service :=
  if act = "start" then
    services.map (fun x =>
      if x.project_name = service.project_name then
        { x with status := "loading" }
      else x)
  else
    services.set i { service with status := "loading" }

/-- Embedding of `perform_action` (src/dcman.py lines 739-780): select,
gate on an in-progress status, mark, rebuild, run the action command, show
its message, then re-query — the whole project for `start`, only the
targeted service otherwise.  Returns the new state and the external
commands issued. -/
def perform_action (st : AppState) (act : String) (aEnv : Launch)
    (sEnv : StatusEnv) : AppState × List ExtCall :=
  match get_selected st with
  | none => ({ st with statusMsg := "No service selected" }, [])
  | some (i, service) =>
    if service.status = "loading" ∨ service.status = "building" then
      ({ st with statusMsg :=
          "Cannot " ++ act ++ " " ++ service.name ++
            ": operation in progress" }, [])
    else
      let pname := service.project_name
      let st1 := { st with statusMsg :=
        "Executing " ++ act ++ " on " ++ pname ++ "/" ++ service.name ++
          "..." }
      let st2 := rebuild_table
        { st1 with services := mark_for_action st1.services i service act }
      let er := execute_action service.project_path service.name act aEnv
      let st3 := { st2 with statusMsg := er.2.1 }
      if act = "start" then
        let st4 := rebuild_table
          { st3 with services := refresh_in_place sEnv st3.services pname }
        (st4, er.2.2 ++
          (st3.services.filter (fun x => x.project_name = pname)).map
            (fun x => ExtCall.statusQuery x.project_path x.name))
      else
        let upd := { service with
          status := queryStatus sEnv service.project_path service.name }
        let st4 := rebuild_table
          { st3 with services := st3.services.set i upd }
        (st4, er.2.2 ++
          [ExtCall.statusQuery service.project_path service.name])

/-- Embedding of `perform_build` (src/dcman.py lines 802-841): select,
gate, mark the target `building`, rebuild, open an empty build-log entry,
run the streaming build (the log callback appends each streamed line to
the entry), show the result message, re-query only the target, and after
the 5-second grace period delete the entry again. -/
def perform_build (st : AppState) (bEnv : Launch) (sEnv : StatusEnv) :
    AppState × List ExtCall :=
  match get_selected st with
  | none => ({ st with statusMsg := "No service selected" }, [])
  | some (i, service) =>
    if service.status = "loading" ∨ service.status = "building" then
      ({ st with statusMsg :=
          "Cannot build " ++ service.name ++ ": operation in progress" }, [])
    else
      let st1 := { st with statusMsg :=
        "Building " ++ service.project_name ++ "/" ++ service.name ++ "..." }
      let marked := { service with status := "building" }
      let st2 := rebuild_table
        { st1 with services := st1.services.set i marked }
      let key := service.project_name ++ "/" ++ service.name
      let st3 := { st2 with buildLogs := dictSet st2.buildLogs key "" }
      let br := build_streaming bEnv service.name
      let st4 := { st3 with
        buildLogs := dictSet st3.buildLogs key
          (String.join (sinkLines br.2.2.events)),
        statusMsg := br.2.1 }
      let upd := { service with
        status := queryStatus sEnv service.project_path service.name }
      let st5 := rebuild_table
        { st4 with services := st4.services.set i upd }
      let st6 := { st5 with buildLogs := dictDel st5.buildLogs key }
      (st6, [ExtCall.build service.project_path service.name,
             ExtCall.statusQuery service.project_path service.name])

/-- Embedding of `action_toggle_service` (src/dcman.py lines 843-859):
select, gate on an in-progress status, then dispatch `stop` when the
current status is `running` and `start` otherwise. -/
def action_toggle_service (st : AppState) (aEnv : Launch)
    (sEnv : StatusEnv) : AppState × List ExtCall :=
  match get_selected st with
  | none => ({ st with statusMsg := "No service selected" }, [])
  | some (_, service) =>
    if service.status = "loading" ∨ service.status = "building" then
      ({ st with statusMsg :=
          "Cannot toggle " ++ service.name ++ ": operation in progress" }, [])
    else if service.status = "running" then
      perform_action st "stop" aEnv sEnv
    else
      perform_action st "start" aEnv sEnv

example :
    perform_action
      ⟨[⟨"app", "web", "/w", "/w/dc.yml", "loading"⟩], 0, 1, "", []⟩
      "stop" (Launch.failure "x") (fun _ _ => (Launch.failure "x", Launch.failure "x"))
    = (⟨[⟨"app", "web", "/w", "/w/dc.yml", "loading"⟩], 0, 1,
        "Cannot stop app: operation in progress", []⟩, []) := by decide

example :
    perform_action
      ⟨[⟨"app", "web", "/w", "/w/dc.yml", "stopped"⟩,
        ⟨"db", "web", "/w", "/w/dc.yml", "stopped"⟩,
        ⟨"x", "other", "/o", "/o/dc.yml", "stopped"⟩], 0, 3, "", []⟩
      "start" (Launch.ok ⟨[], 0, 0, "", 0⟩)
      (fun _ n => if n = "app"
        then (Launch.ok ⟨[(0, "id1\n")], 0, 0, "", 0⟩,
              Launch.ok ⟨[(0, "running\n")], 0, 0, "", 0⟩)
        else (Launch.ok ⟨[], 0, 0, "", 0⟩, Launch.failure "x"))
    = (⟨[⟨"app", "web", "/w", "/w/dc.yml", "running"⟩,
         ⟨"db", "web", "/w", "/w/dc.yml", "stopped"⟩,
         ⟨"x", "other", "/o", "/o/dc.yml", "stopped"⟩], 0, 3,
        "Successfully started app", []⟩,
       [ExtCall.action "/w" "app" "start",
        ExtCall.statusQuery "/w" "app", ExtCall.statusQuery "/w" "db"]) := by
  decide

example :
    perform_action
      ⟨[⟨"app", "web", "/w", "/w/dc.yml", "running"⟩,
        ⟨"db", "web", "/w", "/w/dc.yml", "running"⟩], 0, 2, "", []⟩
      "stop" (Launch.ok ⟨[], 0, 0, "", 0⟩)
      (fun _ _ => (Launch.ok ⟨[], 0, 0, "", 0⟩, Launch.failure "x"))
    = (⟨[⟨"app", "web", "/w", "/w/dc.yml", "stopped"⟩,
         ⟨"db", "web", "/w", "/w/dc.yml", "running"⟩], 0, 2,
        "Successfully stoped app", []⟩,
       [ExtCall.action "/w" "app" "stop", ExtCall.statusQuery "/w" "app"]) := by
  decide

example :
    perform_build
      ⟨[⟨"app", "web", "/w", "/w/dc.yml", "stopped"⟩,
        ⟨"db", "web", "/w", "/w/dc.yml", "running"⟩], 0, 2, "",
        [("old/key", "text")]⟩
      (Launch.ok ⟨[(1, "step 1\n"), (1, "done\n")], 0, 0, "", 0⟩)
      (fun _ _ => (Launch.ok ⟨[], 0, 0, "", 0⟩, Launch.failure "x"))
    = (⟨[⟨"app", "web", "/w", "/w/dc.yml", "stopped"⟩,
         ⟨"db", "web", "/w", "/w/dc.yml", "running"⟩], 0, 2,
        "Successfully built app", [("old/key", "text")]⟩,
       [ExtCall.build "/w" "app", ExtCall.statusQuery "/w" "app"]) := by
  decide

example :
    action_toggle_service
      ⟨[⟨"app", "web", "/w", "/w/dc.yml", "running"⟩], 0, 1, "", []⟩
      (Launch.ok ⟨[], 0, 0, "", 0⟩)
      (fun _ _ => (Launch.ok ⟨[], 0, 0, "", 0⟩, Launch.failure "x"))
    = (⟨[⟨"app", "web", "/w", "/w/dc.yml", "stopped"⟩], 0, 1,
        "Successfully stoped app", []⟩,
       [ExtCall.action "/w" "app" "stop", ExtCall.statusQuery "/w" "app"]) := by
  decide

/-- The event trace the streaming loop produces when it consumes its whole
input: each line is read, then (when a callback is present) immediately
forwarded, before the next read happens. -/
def canonEvents (cb : Bool) : List (Nat × String) → List Ev
  | [] => []
  | p :: rest =>
    Ev.read p.2 :: ((if cb then [Ev.sink p.2] else []) ++ canonEvents cb rest)

theorem timeoutMsg_ne_empty (t : Nat) : timeoutMsg t ≠ "" := by
  intro h
  have hlen := congrArg String.length h
  simp [timeoutMsg, String.length_append] at hlen
  exact absurd hlen.1.1 (by decide)

/-- If every `readline` in the input returns within the timeout, the loop
consumes everything: the buffer is the fold of deque-appends, the events
are the canonical read/forward interleaving, and no timeout fires. -/
theorem readLines_no_timeout (t : Nat) (cap : Option Nat) (cb : Bool)
    (L : List (Nat × String)) :
    ∀ (buf : List String) (evs : List Ev), (∀ p ∈ L, p.1 ≤ t) →
      readLines t cap cb L buf evs
        = (L.foldl (fun b p => pushCap cap b p.2) buf,
            evs ++ canonEvents cb L, false) := by
  induction L with
  | nil => intro buf evs _; simp [readLines, canonEvents]
  | cons p rest ih =>
    intro buf evs h
    obtain ⟨d, l⟩ := p
    have hd : d ≤ t := h (d, l) (List.mem_cons_self _ _)
    have hrest : ∀ q ∈ rest, q.1 ≤ t := fun q hq => h q (List.mem_cons_of_mem _ hq)
    rw [readLines, if_neg (Nat.not_lt.mpr hd), ih _ _ hrest]
    simp [canonEvents, List.append_assoc]

/-- If some `readline` in the input takes longer than the timeout, the
loop ends with a timeout. -/
theorem readLines_gap_timeout (t : Nat) (cap : Option Nat) (cb : Bool)
    (L : List (Nat × String)) :
    ∀ (buf : List String) (evs : List Ev), (∃ p ∈ L, t < p.1) →
      (readLines t cap cb L buf evs).2.2 = true := by
  induction L with
  | nil => intro buf evs h; simp at h
  | cons p rest ih =>
    intro buf evs h
    obtain ⟨d, l⟩ := p
    rw [readLines]
    by_cases hd : t < d
    · rw [if_pos hd]
    · rw [if_neg hd]
      apply ih
      rcases h with ⟨q, hq, hqt⟩
      rcases List.mem_cons.mp hq with rfl | hq'
      · exact absurd hqt hd
      · exact ⟨q, hq', hqt⟩

/-- `run_docker_command` in streaming mode, when every read (and EOF)
arrives within the timeout: the process is read to completion, its exit
code is returned, the buffer is joined into stdout, stderr is empty, and
the trace is the canonical interleaving. -/
theorem run_streaming_complete (t : Nat) (cb : Bool) (ml : Option Nat)
    (cs : Bool) (b : ProcBehavior) (hs : cb = true ∨ ml ≠ none)
    (hgap : ∀ p ∈ b.timedLines, p.1 ≤ t) (heof : b.eofDelta ≤ t) :
    run_docker_command t cb ml cs (Launch.ok b)
      = { returncode := b.exitCode,
          stdout := String.join
            (b.timedLines.foldl (fun bf p => pushCap (capOf ml) bf p.2) []),
          stderr := "",
          events := canonEvents cb b.timedLines ++ [Ev.eof] } := by
  rw [run_docker_command, if_pos hs]
  simp only [readLines_no_timeout t _ cb b.timedLines [] [] hgap]
  simp [Nat.not_lt.mpr heof]

/-- `run_docker_command` in streaming mode, when some single read takes
longer than the timeout: the timeout triple is returned (any already
captured output is dropped from stdout). -/
theorem run_streaming_gap_timeout (t : Nat) (cb : Bool) (ml : Option Nat)
    (cs : Bool) (b : ProcBehavior) (hs : cb = true ∨ ml ≠ none)
    (hgap : ∃ p ∈ b.timedLines, t < p.1) :
    (run_docker_command t cb ml cs (Launch.ok b)).returncode = -1
    ∧ (run_docker_command t cb ml cs (Launch.ok b)).stdout = ""
    ∧ (run_docker_command t cb ml cs (Launch.ok b)).stderr = timeoutMsg t := by
  rw [run_docker_command, if_pos hs]
  simp only [readLines_gap_timeout t _ cb b.timedLines [] [] hgap]
  simp

/-- `run_docker_command` in streaming mode, when all reads are in time but
the final EOF read is not: the timeout triple is returned. -/
theorem run_streaming_eof_timeout (t : Nat) (cb : Bool) (ml : Option Nat)
    (cs : Bool) (b : ProcBehavior) (hs : cb = true ∨ ml ≠ none)
    (hgap : ∀ p ∈ b.timedLines, p.1 ≤ t) (heof : t < b.eofDelta) :
    (run_docker_command t cb ml cs (Launch.ok b)).returncode = -1
    ∧ (run_docker_command t cb ml cs (Launch.ok b)).stdout = ""
    ∧ (run_docker_command t cb ml cs (Launch.ok b)).stderr = timeoutMsg t := by
  rw [run_docker_command, if_pos hs]
  simp only [readLines_no_timeout t _ cb b.timedLines [] [] hgap]
  simp [heof]

/-- `run_docker_command` in normal mode: timeout. -/
theorem run_normal_timeout (t : Nat) (cs : Bool) (b : ProcBehavior)
    (h : t < normalRunDuration b) :
    run_docker_command t false none cs (Launch.ok b)
      = { returncode := -1, stdout := "", stderr := timeoutMsg t,
          events := [] } := by
  rw [run_docker_command]
  simp [h]

/-- `run_docker_command` in normal mode: completion within the timeout. -/
theorem run_normal_complete (t : Nat) (cs : Bool) (b : ProcBehavior)
    (h : normalRunDuration b ≤ t) :
    run_docker_command t false none cs (Launch.ok b)
      = { returncode := b.exitCode, stdout := normalStdout b,
          stderr := if cs then "" else b.stderrOut, events := [] } := by
  rw [run_docker_command]
  simp [Nat.not_lt.mpr h]

/-- Appending to a deque that already only holds the last `k` elements of
a history keeps exactly the last `k` elements of the extended history. -/
theorem takeLast_append_takeLast {α : Type} (k : Nat) (xs : List α) (l : α) :
    takeLast k (takeLast k xs ++ [l]) = takeLast k (xs ++ [l]) := by
  unfold takeLast
  rcases Nat.lt_or_ge xs.length k with hlt | hge
  · have h0 : xs.length - k = 0 := Nat.sub_eq_zero_of_le (Nat.le_of_lt hlt)
    simp [h0]
  · have hdlen : (xs.drop (xs.length - k)).length = k := by
      simp [List.length_drop]; omega
    rcases Nat.eq_zero_or_pos k with rfl | hk
    · have h1 : xs.drop xs.length = ([] : List α) := by simp
      simp [h1]
    · have h1 : ((xs.drop (xs.length - k) ++ [l]).length - k) = 1 := by
        simp [List.length_append, hdlen]
      rw [h1, List.drop_append_of_le_length (by omega : 1 ≤ (xs.drop (xs.length - k)).length),
        List.drop_drop]
      have h2 : ((xs ++ [l]).length - k) = xs.length - k + 1 := by
        simp only [List.length_append, List.length_singleton]
        omega
      rw [h2, List.drop_append_of_le_length (by omega : xs.length - k + 1 ≤ xs.length)]

/-- Folding deque-appends with `maxlen = k` over a line history, starting
from the empty deque, retains exactly the last `k` lines in order. -/
theorem foldl_pushCap (k : Nat) (L : List String) :
    ∀ P : List String,
      L.foldl (fun b l => pushCap (some k) b l) (takeLast k P)
        = takeLast k (P ++ L) := by
  induction L with
  | nil => intro P; simp
  | cons l rest ih =>
    intro P
    rw [List.foldl_cons]
    have h1 : pushCap (some k) (takeLast k P) l = takeLast k (P ++ [l]) := by
      rw [pushCap]
      exact takeLast_append_takeLast k P l
    rw [h1, ih (P ++ [l])]
    simp

theorem foldl_pushCap_nil (k : Nat) (L : List String) :
    L.foldl (fun b l => pushCap (some k) b l) [] = takeLast k L := by
  have h := foldl_pushCap k L []
  simpa [takeLast] using h

theorem sinkLines_append (e1 e2 : List Ev) :
    sinkLines (e1 ++ e2) = sinkLines e1 ++ sinkLines e2 := by
  induction e1 with
  | nil => simp [sinkLines]
  | cons e rest ih => cases e <;> simp [sinkLines, ih]

/-- The lines forwarded to the callback over a fully consumed input are
exactly the input lines, in order. -/
theorem sinkLines_canonEvents (cb : Bool) (L : List (Nat × String)) :
    sinkLines (canonEvents cb L) = if cb then L.map Prod.snd else [] := by
  induction L with
  | nil => cases cb <;> simp [canonEvents, sinkLines]
  | cons p rest ih =>
    cases cb <;> simp [canonEvents, sinkLines, sinkLines_append, ih]

theorem gss_first_failure (m : String) (o2 : Launch) :
    get_service_status (Launch.failure m) o2 = "stopped" := by
  simp [get_service_status, run_docker_command]

theorem gss_first_timeout (b : ProcBehavior) (o2 : Launch)
    (h : 5 < normalRunDuration b) :
    get_service_status (Launch.ok b) o2 = "stopped" := by
  simp [get_service_status, run_normal_timeout 5 false b h]

theorem gss_first_nonzero (b : ProcBehavior) (o2 : Launch)
    (h : b.exitCode ≠ 0) :
    get_service_status (Launch.ok b) o2 = "stopped" := by
  by_cases hd : 5 < normalRunDuration b
  · exact gss_first_timeout b o2 hd
  · simp [get_service_status, run_normal_complete 5 false b (Nat.not_lt.mp hd), h]

theorem gss_first_empty (b : ProcBehavior) (o2 : Launch)
    (h : pyStrip (normalStdout b) = "") :
    get_service_status (Launch.ok b) o2 = "stopped" := by
  by_cases hd : 5 < normalRunDuration b
  · exact gss_first_timeout b o2 hd
  · simp [get_service_status, run_normal_complete 5 false b (Nat.not_lt.mp hd), h]

/-- When the listing command succeeds with non-empty output, the result is
decided entirely by the inspect command's stdout. -/
theorem gss_second (b1 : ProcBehavior) (o2 : Launch)
    (hd : normalRunDuration b1 ≤ 5) (he : b1.exitCode = 0)
    (hs : pyStrip (normalStdout b1) ≠ "") :
    get_service_status (Launch.ok b1) o2
      = (if pyStrip (run_docker_command 5 false none false o2).stdout = ""
         then "unknown"
         else pyStrip (run_docker_command 5 false none false o2).stdout) := by
  simp [get_service_status, run_normal_complete 5 false b1 hd, he, hs]

/-- Claim C8: a ProcessRunner invocation whose process fails to launch
returns the triple `(-1, "", error message)` (no stream events happen);
`run_docker_command` is a total function, so the launch failure never
propagates as an exception past the caller. -/
theorem claim_launch_failure_triple (t : Nat) (cb : Bool) (ml : Option Nat)
    (cs : Bool) (m : String) :
    run_docker_command t cb ml cs (Launch.failure m)
      = { returncode := -1, stdout := "", stderr := m, events := [] } := rfl

/-- Claim C2 counterexample: a streaming ProcessRunner call that reads and
forwards one line (visible in the event trace) and then exceeds its
timeout on the next read returns `stdout = ""` — the partial output
already captured is **not** preserved in the returned stdout, contrary to
the claim. -/
theorem claim_timeout_partial_output_cx :
    run_docker_command 5 true none false
      (Launch.ok ⟨[(1, "a\n"), (9, "b\n")], 0, 0, "", 0⟩)
      = { returncode := -1, stdout := "", stderr := timeoutMsg 5,
          events := [Ev.read "a\n", Ev.sink "a\n"] }
    ∧ ("a\n" : String) ≠ "" := ⟨by decide, by decide⟩

/-- Claim C2 (amended): every command that exceeds its timeout — in
streaming mode some single read (or the EOF read) takes longer than the
timeout, in normal mode the process as a whole does — returns exit code
`-1` together with the diagnostic message, and the returned stdout is
empty: output captured before the timeout is discarded, not preserved. -/
theorem claim_timeout_returns_sentinel (t : Nat) (cb : Bool) (ml : Option Nat)
    (cs : Bool) (b : ProcBehavior)
    (h : if cb = true ∨ ml ≠ none
         then (∃ p ∈ b.timedLines, t < p.1) ∨ t < b.eofDelta
         else t < normalRunDuration b) :
    (run_docker_command t cb ml cs (Launch.ok b)).returncode = -1
    ∧ (run_docker_command t cb ml cs (Launch.ok b)).stdout = ""
    ∧ (run_docker_command t cb ml cs (Launch.ok b)).stderr = timeoutMsg t := by
  by_cases hs : cb = true ∨ ml ≠ none
  · rw [if_pos hs] at h
    rcases h with hgap | heof
    · exact run_streaming_gap_timeout t cb ml cs b hs hgap
    · by_cases hg : ∃ p ∈ b.timedLines, t < p.1
      · exact run_streaming_gap_timeout t cb ml cs b hs hg
      · have hall : ∀ p ∈ b.timedLines, p.1 ≤ t := by
          intro p hp
          by_contra hc
          exact hg ⟨p, hp, Nat.lt_of_not_le hc⟩
        exact run_streaming_eof_timeout t cb ml cs b hs hall heof
  · rw [if_neg hs] at h
    have hcb : cb = false := by
      cases cb
      · rfl
      · exact absurd (Or.inl rfl) hs
    have hml : ml = none := by
      cases ml with
      | none => rfl
      | some k => exact absurd (Or.inr (by simp)) hs
    subst hcb; subst hml
    rw [run_normal_timeout t cs b h]
    exact ⟨rfl, rfl, rfl⟩

theorem claim_timeout_returns_sentinel_witness :
    (if (true = true ∨ (none : Option Nat) ≠ none)
       then ((∃ p ∈ [((9 : Nat), "x\n")], 5 < p.1) ∨ 5 < 0)
       else 5 < normalRunDuration ⟨[(9, "x\n")], 0, 0, "", 0⟩)
    ∧ ((run_docker_command 5 true none false
          (Launch.ok ⟨[(9, "x\n")], 0, 0, "", 0⟩)).returncode = -1
        ∧ (run_docker_command 5 true none false
            (Launch.ok ⟨[(9, "x\n")], 0, 0, "", 0⟩)).stdout = ""
        ∧ (run_docker_command 5 true none false
            (Launch.ok ⟨[(9, "x\n")], 0, 0, "", 0⟩)).stderr = timeoutMsg 5) :=
  ⟨by decide,
    claim_timeout_returns_sentinel 5 true none false
      ⟨[(9, "x\n")], 0, 0, "", 0⟩ (by decide)⟩

/-- Claim C3 counterexample: a streaming run whose two lines each arrive
within the 5-second timeout but whose aggregate running time (9 seconds)
exceeds it is **not** terminated with the timeout result — it completes
normally — so the timeout does not bound the read-to-completion loop in
aggregate. -/
theorem claim_timeout_aggregate_cx :
    run_docker_command 5 true none false
      (Launch.ok ⟨[(4, "a\n"), (4, "b\n")], 1, 0, "", 0⟩)
      = { returncode := 0, stdout := "a\nb\n", stderr := "",
          events := [Ev.read "a\n", Ev.sink "a\n", Ev.read "b\n",
            Ev.sink "b\n", Ev.eof] }
    ∧ 5 < normalRunDuration ⟨[(4, "a\n"), (4, "b\n")], 1, 0, "", 0⟩ :=
  ⟨by decide, by decide⟩

/-- Claim C3 (amended): in streaming mode the timeout is a per-read
bound, not an aggregate one: the call returns the timeout diagnostic iff
some single read — one line's arrival or the final EOF — takes longer
than the timeout, and when every read is in time the call completes
normally with the process exit code, however large the total running time
is.  (The call terminates on every input: `run_docker_command` is a total
function.) -/
theorem claim_timeout_per_read_bound (t : Nat) (cb : Bool) (ml : Option Nat)
    (cs : Bool) (b : ProcBehavior) (hs : cb = true ∨ ml ≠ none) :
    ((run_docker_command t cb ml cs (Launch.ok b)).stderr = timeoutMsg t
      ↔ ((∃ p ∈ b.timedLines, t < p.1) ∨ t < b.eofDelta))
    ∧ ((∀ p ∈ b.timedLines, p.1 ≤ t) → b.eofDelta ≤ t →
        (run_docker_command t cb ml cs (Launch.ok b)).returncode
          = b.exitCode) := by
  constructor
  · constructor
    · intro h
      by_contra hc
      push_neg at hc
      obtain ⟨hgap, heof⟩ := hc
      have hall : ∀ p ∈ b.timedLines, p.1 ≤ t := fun p hp => hgap p hp
      rw [run_streaming_complete t cb ml cs b hs hall heof] at h
      exact timeoutMsg_ne_empty t h.symm
    · intro h
      rcases h with hgap | heof
      · exact (run_streaming_gap_timeout t cb ml cs b hs hgap).2.2
      · by_cases hg : ∃ p ∈ b.timedLines, t < p.1
        · exact (run_streaming_gap_timeout t cb ml cs b hs hg).2.2
        · have hall : ∀ p ∈ b.timedLines, p.1 ≤ t := by
            intro p hp
            by_contra hc2
            exact hg ⟨p, hp, Nat.lt_of_not_le hc2⟩
          exact (run_streaming_eof_timeout t cb ml cs b hs hall heof).2.2
  · intro hall heof
    rw [run_streaming_complete t cb ml cs b hs hall heof]

theorem claim_timeout_per_read_bound_witness :
    (run_docker_command 5 true none false
      (Launch.ok ⟨[(9, "x\n")], 2, 0, "", 0⟩)).stderr = timeoutMsg 5 :=
  (claim_timeout_per_read_bound 5 true none false
    ⟨[(9, "x\n")], 2, 0, "", 0⟩ (Or.inl rfl)).1.mpr
    (Or.inl ⟨(9, "x\n"), by decide, by decide⟩)

/-- Claim C7 counterexample: with `max_buffered_lines = 0` against a
process emitting one line (more than 0 lines), the returned stdout is the
whole line, not the last 0 lines (the empty string): `max_lines = 0` is
falsy in the source, so the buffer deque is created unbounded. -/
theorem claim_ring_buffer_zero_cx :
    (run_docker_command 5 false (some 0) false
      (Launch.ok ⟨[(0, "a\n")], 0, 0, "", 0⟩)).stdout = "a\n"
    ∧ ("a\n" : String) ≠ "" := ⟨by decide, by decide⟩

/-- Claim C7 (amended, requiring `1 ≤ K`): a streaming invocation with
`max_buffered_lines = K ≥ 1` against a process emitting more than `K`
lines (each read, and EOF, within the timeout) returns as stdout exactly
the last `K` lines in their original emission order, its event trace is
the canonical read-then-forward interleaving — each decoded line is handed
to the sink, when present, before the next line is read — and the lines
delivered to the sink are exactly the process output, in order. -/
theorem claim_ring_buffer_last_k (t : Nat) (cb cs : Bool) (K : Nat)
    (b : ProcBehavior) (hK : 1 ≤ K)
    (hgap : ∀ p ∈ b.timedLines, p.1 ≤ t) (heof : b.eofDelta ≤ t)
    (_hlong : K < b.timedLines.length) :
    (run_docker_command t cb (some K) cs (Launch.ok b)).stdout
      = String.join (takeLast K (b.timedLines.map Prod.snd))
    ∧ (run_docker_command t cb (some K) cs (Launch.ok b)).events
      = canonEvents cb b.timedLines ++ [Ev.eof]
    ∧ sinkLines (run_docker_command t cb (some K) cs (Launch.ok b)).events
      = (if cb then b.timedLines.map Prod.snd else []) := by
  have hs : cb = true ∨ (some K : Option Nat) ≠ none := Or.inr (by simp)
  have hK0 : K ≠ 0 := by omega
  have hcap : capOf (some K) = some K := by simp [capOf, hK0]
  have hrun := run_streaming_complete t cb (some K) cs b hs hgap heof
  rw [hcap] at hrun
  refine ⟨?_, ?_, ?_⟩ <;> rw [hrun]
  · show String.join
        (b.timedLines.foldl (fun bf p => pushCap (some K) bf p.2) []) = _
    have hf : b.timedLines.foldl
          (fun bf p => pushCap (some K) bf p.2) ([] : List String)
        = (b.timedLines.map Prod.snd).foldl
            (fun bf l => pushCap (some K) bf l) [] := by
      rw [List.foldl_map]
    rw [hf, foldl_pushCap_nil]
  · show sinkLines (canonEvents cb b.timedLines ++ [Ev.eof]) = _
    rw [sinkLines_append, sinkLines_canonEvents]
    cases cb <;> simp [sinkLines]

theorem claim_ring_buffer_last_k_witness :
    (run_docker_command 5 true (some 2) false
      (Launch.ok ⟨[(0, "1\n"), (0, "2\n"), (0, "3\n")], 0, 0, "", 0⟩)).stdout
      = String.join (takeLast 2 ["1\n", "2\n", "3\n"])
    ∧ sinkLines (run_docker_command 5 true (some 2) false
        (Launch.ok ⟨[(0, "1\n"), (0, "2\n"), (0, "3\n")], 0, 0, "", 0⟩)).events
      = ["1\n", "2\n", "3\n"] := by
  have h := claim_ring_buffer_last_k 5 true false 2
    ⟨[(0, "1\n"), (0, "2\n"), (0, "3\n")], 0, 0, "", 0⟩
    (by decide) (by decide) (by decide) (by decide)
  exact ⟨h.1, by rw [h.2.2]; decide⟩

/-- Claim C10 counterexample: a streaming invocation that times out
returns the timeout diagnostic — a non-empty string — in its stderr
component, so the returned stderr is not always the empty string in
streaming mode. -/
theorem claim_streaming_stderr_cx :
    (run_docker_command 5 false (some 10) false
      (Launch.ok ⟨[], 99, 0, "boom", 0⟩)).stderr = timeoutMsg 5
    ∧ timeoutMsg 5 ≠ "" := ⟨by decide, by decide⟩

/-- Claim C10 (amended): in streaming mode the returned stderr never
carries the process's stderr content: on a run read to completion it is
exactly `""`, even when `merge_stderr` is false and the process wrote to
stderr, and on any other streaming run it is exactly the timeout
diagnostic; consequently the log-fetch failure message for a completed
but failed `docker compose logs` command carries no stderr text. -/
theorem claim_streaming_stderr_empty (t : Nat) (cb cs : Bool)
    (ml : Option Nat) (b : ProcBehavior) (tail : Nat)
    (hs : cb = true ∨ ml ≠ none) :
    ((∀ p ∈ b.timedLines, p.1 ≤ t) → b.eofDelta ≤ t →
        (run_docker_command t cb ml cs (Launch.ok b)).stderr = "")
    ∧ ((run_docker_command t cb ml cs (Launch.ok b)).stderr = ""
        ∨ (run_docker_command t cb ml cs (Launch.ok b)).stderr = timeoutMsg t)
    ∧ ((∀ p ∈ b.timedLines, p.1 ≤ 10) → b.eofDelta ≤ 10 → b.exitCode ≠ 0 →
        get_service_logs tail (Launch.ok b) = "Error fetching logs: ") := by
  refine ⟨?_, ?_, ?_⟩
  · intro hgap heof
    rw [run_streaming_complete t cb ml cs b hs hgap heof]
  · by_cases hg : ∃ p ∈ b.timedLines, t < p.1
    · right; exact (run_streaming_gap_timeout t cb ml cs b hs hg).2.2
    · have hall : ∀ p ∈ b.timedLines, p.1 ≤ t := by
        intro p hp
        by_contra hc
        exact hg ⟨p, hp, Nat.lt_of_not_le hc⟩
      by_cases he : t < b.eofDelta
      · right; exact (run_streaming_eof_timeout t cb ml cs b hs hall he).2.2
      · left
        rw [run_streaming_complete t cb ml cs b hs hall (Nat.not_lt.mp he)]
  · intro hgap heof hexit
    have hs10 : (false = true) ∨ (some tail : Option Nat) ≠ none :=
      Or.inr (by simp)
    rw [get_service_logs,
      run_streaming_complete 10 false (some tail) false b hs10 hgap heof]
    simp [hexit]

theorem claim_streaming_stderr_empty_witness :
    (run_docker_command 5 false (some 3) false
      (Launch.ok ⟨[(1, "out\n")], 1, 0, "process stderr text", 7⟩)).stderr = ""
    ∧ get_service_logs 3
        (Launch.ok ⟨[(1, "out\n")], 1, 0, "process stderr text", 7⟩)
      = "Error fetching logs: " := by
  have h := claim_streaming_stderr_empty 5 false false (some 3)
    ⟨[(1, "out\n")], 1, 0, "process stderr text", 7⟩ 3 (Or.inr (by decide))
  exact ⟨h.1 (by decide) (by decide),
    h.2.2 (by decide) (by decide) (by decide)⟩

/-- Claim C1 counterexample: a failure of the first (listing) command —
here a launch failure, and the same holds for its timeout or non-zero
exit — resolves the status query to `"stopped"`, not `"unknown"`,
contradicting the claim that any failure anywhere in the two-step query
resolves to `unknown`. -/
theorem claim_status_query_failure_cx :
    get_service_status (Launch.failure "docker executable missing")
      (Launch.failure "docker executable missing") = "stopped"
    ∧ ("stopped" : String) ≠ "unknown" := ⟨by decide, by decide⟩

/-- Claim C1 (amended): a first command that fails (launch failure,
timeout, non-zero exit) or prints only whitespace resolves to
`"stopped"`, exactly as an empty listing does; only when the first
command succeeds with non-empty output is the second command issued, and
then its stripped output is returned, with `"unknown"` exactly when that
output is empty — which is what every ProcessRunner-level failure of the
second command produces (its exit code is otherwise ignored).  No
exception propagates: `get_service_status` is a total function. -/
theorem claim_status_query_resolution (b1 b2 : ProcBehavior)
    (m m2 : String) :
    (get_service_status (Launch.failure m) (Launch.ok b2) = "stopped")
    ∧ (5 < normalRunDuration b1 →
        get_service_status (Launch.ok b1) (Launch.ok b2) = "stopped")
    ∧ (b1.exitCode ≠ 0 →
        get_service_status (Launch.ok b1) (Launch.ok b2) = "stopped")
    ∧ (pyStrip (normalStdout b1) = "" →
        get_service_status (Launch.ok b1) (Launch.ok b2) = "stopped")
    ∧ (normalRunDuration b1 ≤ 5 → b1.exitCode = 0 →
        pyStrip (normalStdout b1) ≠ "" →
        (get_service_status (Launch.ok b1) (Launch.failure m2) = "unknown")
        ∧ (5 < normalRunDuration b2 →
            get_service_status (Launch.ok b1) (Launch.ok b2) = "unknown")
        ∧ (normalRunDuration b2 ≤ 5 → pyStrip (normalStdout b2) = "" →
            get_service_status (Launch.ok b1) (Launch.ok b2) = "unknown")
        ∧ (normalRunDuration b2 ≤ 5 → pyStrip (normalStdout b2) ≠ "" →
            get_service_status (Launch.ok b1) (Launch.ok b2)
              = pyStrip (normalStdout b2))) := by
  refine ⟨gss_first_failure m _, fun h => gss_first_timeout b1 _ h,
    fun h => gss_first_nonzero b1 _ h, fun h => gss_first_empty b1 _ h, ?_⟩
  intro hd he hstr
  refine ⟨?_, ?_, ?_, ?_⟩
  · rw [gss_second b1 _ hd he hstr]
    rfl
  · intro h2
    rw [gss_second b1 _ hd he hstr, run_normal_timeout 5 false b2 h2]
    rfl
  · intro h2d h2e
    rw [gss_second b1 _ hd he hstr, run_normal_complete 5 false b2 h2d]
    simp [h2e]
  · intro h2d h2e
    rw [gss_second b1 _ hd he hstr, run_normal_complete 5 false b2 h2d]
    simp [h2e]

theorem claim_status_query_resolution_witness :
    get_service_status (Launch.ok ⟨[(0, "id9\n")], 0, 0, "", 0⟩)
      (Launch.failure "inspect missing") = "unknown" := by
  have h := claim_status_query_resolution ⟨[(0, "id9\n")], 0, 0, "", 0⟩
    ⟨[], 0, 0, "", 0⟩ "m" "inspect missing"
  exact (h.2.2.2.2 (by decide) (by decide) (by decide)).1

/-- A status query whose second command fails to launch resolves to a
plain domain value, never an error. -/
theorem gss_second_failure_resolves (o1 : Launch) (m2 : String) :
    get_service_status o1 (Launch.failure m2) = "stopped"
    ∨ get_service_status o1 (Launch.failure m2) = "unknown" := by
  cases o1 with
  | failure m => left; exact gss_first_failure m _
  | ok b1 =>
    by_cases hd : 5 < normalRunDuration b1
    · left; exact gss_first_timeout b1 _ hd
    · by_cases he : b1.exitCode = 0
      · by_cases hstr : pyStrip (normalStdout b1) = ""
        · left; exact gss_first_empty b1 _ hstr
        · right
          rw [gss_second b1 _ (Nat.not_lt.mp hd) he hstr]
          rfl
      · left; exact gss_first_nonzero b1 _ he

/-- A status query whose second command times out resolves to a plain
domain value, never an error. -/
theorem gss_second_timeout_resolves (o1 : Launch) (b2 : ProcBehavior)
    (h : 5 < normalRunDuration b2) :
    get_service_status o1 (Launch.ok b2) = "stopped"
    ∨ get_service_status o1 (Launch.ok b2) = "unknown" := by
  cases o1 with
  | failure m => left; exact gss_first_failure m _
  | ok b1 =>
    by_cases hd : 5 < normalRunDuration b1
    · left; exact gss_first_timeout b1 _ hd
    · by_cases he : b1.exitCode = 0
      · by_cases hstr : pyStrip (normalStdout b1) = ""
        · left; exact gss_first_empty b1 _ hstr
        · right
          rw [gss_second b1 _ (Nat.not_lt.mp hd) he hstr,
            run_normal_timeout 5 false b2 h]
          rfl
      · left; exact gss_first_nonzero b1 _ he

/-- Claim C4: refreshing a list of N services issues exactly N status
queries, one per service in order; all results are computed (the
`asyncio.gather` fan-in) before any status is assigned, and the batch
assigns each service exactly the result of its own query — after the call
a service's status is what its query returned, and every other field is
unchanged.  No query failure aborts the batch: a query whose listing
command fails to launch or times out resolves to `"stopped"`, and one
whose inspect step fails resolves to `"stopped"` or `"unknown"` — always
a plain status value, never an error. -/
theorem claim_refresh_batch (sEnv : StatusEnv) (ss : List Service)
    (p n m1 m2 : String) (b : ProcBehavior) :
    (refresh_services sEnv ss).2.length = ss.length
    ∧ (refresh_services sEnv ss).2
      = ss.map (fun s => ExtCall.statusQuery s.project_path s.name)
    ∧ (refresh_services sEnv ss).1
      = ss.map (fun s =>
          { s with status := queryStatus sEnv s.project_path s.name })
    ∧ ((sEnv p n).1 = Launch.failure m1 → queryStatus sEnv p n = "stopped")
    ∧ ((sEnv p n).1 = Launch.ok b → 5 < normalRunDuration b →
        queryStatus sEnv p n = "stopped")
    ∧ ((sEnv p n).2 = Launch.failure m2 →
        queryStatus sEnv p n = "stopped" ∨ queryStatus sEnv p n = "unknown")
    ∧ ((sEnv p n).2 = Launch.ok b → 5 < normalRunDuration b →
        queryStatus sEnv p n = "stopped"
        ∨ queryStatus sEnv p n = "unknown") := by
  refine ⟨?_, rfl, ?_, ?_, ?_, ?_, ?_⟩
  · simp [refresh_services]
  · simp only [refresh_services, List.map_map]
    rfl
  · intro h
    unfold queryStatus
    rw [h]
    exact gss_first_failure m1 _
  · intro h hd
    unfold queryStatus
    rw [h]
    exact gss_first_timeout b _ hd
  · intro h
    unfold queryStatus
    rw [h]
    exact gss_second_failure_resolves _ m2
  · intro h hd
    unfold queryStatus
    rw [h]
    exact gss_second_timeout_resolves _ b hd

theorem claim_refresh_batch_witness :
    ((fun _ _ => (Launch.failure "daemon down", Launch.failure "daemon down")
        : StatusEnv) "/w" "app").1 = Launch.failure "daemon down"
    ∧ (refresh_services
        (fun _ _ => (Launch.failure "daemon down", Launch.failure "daemon down"))
        [⟨"app", "web", "/w", "/w/dc.yml", "running"⟩]).1
      = [⟨"app", "web", "/w", "/w/dc.yml", "stopped"⟩]
    ∧ queryStatus
        (fun _ _ => (Launch.failure "daemon down", Launch.failure "daemon down"))
        "/w" "app" = "stopped" := by
  have h := claim_refresh_batch
    (fun _ _ => (Launch.failure "daemon down", Launch.failure "daemon down"))
    [⟨"app", "web", "/w", "/w/dc.yml", "running"⟩]
    "/w" "app" "daemon down" "daemon down" ⟨[], 0, 0, "", 0⟩
  refine ⟨rfl, ?_, h.2.2.2.1 rfl⟩
  rw [h.2.2.1]
  decide

/-- Claim C5: an action request (any action string) or a build request on
a selected service whose current status is `loading` or `building` is
rejected: the returned state is the input state with only the status-bar
message replaced by the user-facing rejection text — registry, cursor and
build-log store untouched — and no external command is issued. -/
theorem claim_gate_rejects_in_progress (st : AppState) (i : Nat)
    (s : Service) (act : String) (aEnv bEnv : Launch) (sEnv : StatusEnv)
    (hsel : get_selected st = some (i, s))
    (hst : s.status = "loading" ∨ s.status = "building") :
    perform_action st act aEnv sEnv
      = ({ st with statusMsg :=
            "Cannot " ++ act ++ " " ++ s.name ++ ": operation in progress" },
          [])
    ∧ perform_build st bEnv sEnv
      = ({ st with statusMsg :=
            "Cannot build " ++ s.name ++ ": operation in progress" }, []) := by
  constructor
  · simp only [perform_action, hsel]
    rw [if_pos hst]
  · simp only [perform_build, hsel]
    rw [if_pos hst]

theorem claim_gate_rejects_in_progress_witness :
    get_selected ⟨[⟨"app", "web", "/w", "/w/dc.yml", "building"⟩], 0, 1,
        "", [("web/app", "log text")]⟩
      = some (0, ⟨"app", "web", "/w", "/w/dc.yml", "building"⟩)
    ∧ perform_action
        ⟨[⟨"app", "web", "/w", "/w/dc.yml", "building"⟩], 0, 1, "",
          [("web/app", "log text")]⟩
        "restart" (Launch.failure "x") (fun _ _ => (Launch.failure "x", Launch.failure "x"))
      = (⟨[⟨"app", "web", "/w", "/w/dc.yml", "building"⟩], 0, 1,
          "Cannot restart app: operation in progress",
          [("web/app", "log text")]⟩, [])
    ∧ perform_build
        ⟨[⟨"app", "web", "/w", "/w/dc.yml", "building"⟩], 0, 1, "",
          [("web/app", "log text")]⟩
        (Launch.failure "x") (fun _ _ => (Launch.failure "x", Launch.failure "x"))
      = (⟨[⟨"app", "web", "/w", "/w/dc.yml", "building"⟩], 0, 1,
          "Cannot build app: operation in progress",
          [("web/app", "log text")]⟩, []) := by
  have h := claim_gate_rejects_in_progress
    ⟨[⟨"app", "web", "/w", "/w/dc.yml", "building"⟩], 0, 1, "",
      [("web/app", "log text")]⟩
    0 ⟨"app", "web", "/w", "/w/dc.yml", "building"⟩ "restart"
    (Launch.failure "x") (Launch.failure "x")
    (fun _ _ => (Launch.failure "x", Launch.failure "x"))
    (by decide) (Or.inr rfl)
  exact ⟨by decide, h.1, h.2⟩

theorem rebuild_table_services (st : AppState) :
    (rebuild_table st).services = st.services := rfl

theorem rebuild_table_buildLogs (st : AppState) :
    (rebuild_table st).buildLogs = st.buildLogs := rfl

/-- Every admitted action command (start/stop/restart) issues exactly its
one external action command, whether it succeeds or fails. -/
theorem execute_action_calls (project_path name act : String) (env : Launch)
    (h : act = "start" ∨ act = "stop" ∨ act = "restart") :
    (execute_action project_path name act env).2.2
      = [ExtCall.action project_path name act] := by
  rw [execute_action, if_pos h]
  by_cases hr : (run_docker_command 60 false none false env).returncode = 0 <;>
    simp [hr]

/-- Re-querying a project over a registry whose project members were just
marked `loading` yields fresh query results for exactly those members:
marking only changes `status`, which the query does not read. -/
theorem mark_refresh_map (ss : List Service) (pname : String)
    (sEnv : StatusEnv) :
    refresh_in_place sEnv
      (ss.map (fun x =>
        if x.project_name = pname then { x with status := "loading" } else x))
      pname
    = ss.map (fun x =>
        if x.project_name = pname
        then { x with status := queryStatus sEnv x.project_path x.name }
        else x) := by
  unfold refresh_in_place
  rw [List.map_map]
  apply List.map_congr_left
  intro x _
  by_cases hx : x.project_name = pname
  · simp [Function.comp, hx]
  · simp [Function.comp, hx]

/-- The status queries issued for a project do not depend on the marking
that preceded them. -/
theorem mark_filter_map (ss : List Service) (pname : String) :
    ((ss.map (fun x =>
        if x.project_name = pname then { x with status := "loading" } else x)).filter
          (fun x => x.project_name = pname)).map
        (fun x => ExtCall.statusQuery x.project_path x.name)
      = (ss.filter (fun x => x.project_name = pname)).map
          (fun x => ExtCall.statusQuery x.project_path x.name) := by
  induction ss with
  | nil => rfl
  | cons a l ih =>
    by_cases ha : a.project_name = pname <;>
      simp [List.filter_cons, ha, ih]

/-- Reduction of `perform_action` for an admitted `start`: the final
registry holds fresh query results for every member of the target's
project and leaves every other slot untouched. -/
theorem perform_action_start_services (st : AppState) (i : Nat)
    (s : Service) (aEnv : Launch) (sEnv : StatusEnv)
    (hsel : get_selected st = some (i, s))
    (hgate : ¬(s.status = "loading" ∨ s.status = "building")) :
    (perform_action st "start" aEnv sEnv).1.services
      = st.services.map (fun x =>
          if x.project_name = s.project_name
          then { x with status := queryStatus sEnv x.project_path x.name }
          else x) := by
  simp only [perform_action, hsel]
  rw [if_neg hgate, if_pos trivial]
  simp only [rebuild_table_services]
  rw [mark_for_action, if_pos (rfl : ("start" : String) = "start")]
  exact mark_refresh_map st.services s.project_name sEnv

/-- Reduction of `perform_action` for an admitted `start`: the external
calls are the action command followed by one status query per member of
the target's project. -/
theorem perform_action_start_calls (st : AppState) (i : Nat) (s : Service)
    (aEnv : Launch) (sEnv : StatusEnv)
    (hsel : get_selected st = some (i, s))
    (hgate : ¬(s.status = "loading" ∨ s.status = "building")) :
    (perform_action st "start" aEnv sEnv).2
      = ExtCall.action s.project_path s.name "start"
        :: (st.services.filter
              (fun x => x.project_name = s.project_name)).map
            (fun x => ExtCall.statusQuery x.project_path x.name) := by
  simp only [perform_action, hsel]
  rw [if_neg hgate, if_pos trivial]
  simp only [rebuild_table_services]
  rw [execute_action_calls s.project_path s.name "start" aEnv (Or.inl rfl),
    mark_for_action, if_pos (rfl : ("start" : String) = "start"),
    mark_filter_map st.services s.project_name]
  rfl

/-- Reduction of `perform_action` for an admitted non-`start` action: the
final registry is the original with only the selected slot replaced by
its fresh query result. -/
theorem perform_action_single_services (st : AppState) (i : Nat)
    (s : Service) (act : String) (aEnv : Launch) (sEnv : StatusEnv)
    (hsel : get_selected st = some (i, s))
    (hgate : ¬(s.status = "loading" ∨ s.status = "building"))
    (hact : ¬act = "start") :
    (perform_action st act aEnv sEnv).1.services
      = st.services.set i
          { s with status := queryStatus sEnv s.project_path s.name } := by
  simp only [perform_action, hsel]
  rw [if_neg hgate, if_neg hact]
  simp only [rebuild_table_services]
  rw [mark_for_action, if_neg hact, List.set_set]

/-- Reduction of `perform_action` for an admitted `stop`/`restart`: the
external calls are the action command and one status query against the
selected service only. -/
theorem perform_action_single_calls (st : AppState) (i : Nat) (s : Service)
    (act : String) (aEnv : Launch) (sEnv : StatusEnv)
    (hsel : get_selected st = some (i, s))
    (hgate : ¬(s.status = "loading" ∨ s.status = "building"))
    (hact : ¬act = "start") (hallowed : act = "stop" ∨ act = "restart") :
    (perform_action st act aEnv sEnv).2
      = [ExtCall.action s.project_path s.name act,
         ExtCall.statusQuery s.project_path s.name] := by
  simp only [perform_action, hsel]
  rw [if_neg hgate, if_neg hact]
  rw [execute_action_calls s.project_path s.name act aEnv (Or.inr hallowed)]
  rfl

/-- Reduction of `perform_build` for an admitted build: only the selected
slot is re-queried in the final registry, and the external calls are the
build command plus one status query against the selected service. -/
theorem perform_build_spec (st : AppState) (i : Nat) (s : Service)
    (bEnv : Launch) (sEnv : StatusEnv)
    (hsel : get_selected st = some (i, s))
    (hgate : ¬(s.status = "loading" ∨ s.status = "building")) :
    (perform_build st bEnv sEnv).1.services
      = st.services.set i
          { s with status := queryStatus sEnv s.project_path s.name }
    ∧ (perform_build st bEnv sEnv).2
      = [ExtCall.build s.project_path s.name,
         ExtCall.statusQuery s.project_path s.name] := by
  constructor
  · simp only [perform_build, hsel]
    rw [if_neg hgate]
    simp only [rebuild_table_services]
    rw [List.set_set]
  · simp only [perform_build, hsel]
    rw [if_neg hgate]

/-- Claim C6: for an admitted `start` on service `s` of project `P`, the
pre-dispatch marking sets every member of `P` to `loading` (and touches
nothing else), and after the start command completes every member of `P`
is re-queried: the final registry holds each member's fresh query result,
non-members are untouched, and the calls issued are the action command
followed by one status query per member of `P`.  For an admitted `stop`
or `restart` only the selected slot is marked and only it is re-queried —
sibling slots keep their statuses — with exactly the action command and
one status query issued; an admitted build has the same single-target
shape with the build command. -/
theorem claim_start_project_others_single (st : AppState) (i : Nat)
    (s : Service) (aEnv bEnv : Launch) (sEnv : StatusEnv)
    (hsel : get_selected st = some (i, s))
    (hgate : ¬(s.status = "loading" ∨ s.status = "building")) :
    (mark_for_action st.services i s "start"
      = st.services.map (fun x =>
          if x.project_name = s.project_name
          then { x with status := "loading" } else x))
    ∧ ((perform_action st "start" aEnv sEnv).1.services
      = st.services.map (fun x =>
          if x.project_name = s.project_name
          then { x with status := queryStatus sEnv x.project_path x.name }
          else x))
    ∧ ((perform_action st "start" aEnv sEnv).2
      = ExtCall.action s.project_path s.name "start"
        :: (st.services.filter
              (fun x => x.project_name = s.project_name)).map
            (fun x => ExtCall.statusQuery x.project_path x.name))
    ∧ (∀ act, (act = "stop" ∨ act = "restart") →
        mark_for_action st.services i s act
          = st.services.set i { s with status := "loading" }
        ∧ (perform_action st act aEnv sEnv).1.services
          = st.services.set i
              { s with status := queryStatus sEnv s.project_path s.name }
        ∧ (perform_action st act aEnv sEnv).2
          = [ExtCall.action s.project_path s.name act,
             ExtCall.statusQuery s.project_path s.name])
    ∧ ((perform_build st bEnv sEnv).1.services
        = st.services.set i
            { s with status := queryStatus sEnv s.project_path s.name })
    ∧ ((perform_build st bEnv sEnv).2
        = [ExtCall.build s.project_path s.name,
           ExtCall.statusQuery s.project_path s.name]) := by
  refine ⟨?_, perform_action_start_services st i s aEnv sEnv hsel hgate,
    perform_action_start_calls st i s aEnv sEnv hsel hgate, ?_,
    (perform_build_spec st i s bEnv sEnv hsel hgate).1,
    (perform_build_spec st i s bEnv sEnv hsel hgate).2⟩
  · rw [mark_for_action, if_pos (rfl : ("start" : String) = "start")]
  · intro act hallowed
    have hact : ¬act = "start" := by
      rcases hallowed with h | h <;> subst h <;> decide
    exact ⟨by rw [mark_for_action, if_neg hact],
      perform_action_single_services st i s act aEnv sEnv hsel hgate hact,
      perform_action_single_calls st i s act aEnv sEnv hsel hgate hact
        hallowed⟩

theorem claim_start_project_others_single_witness :
    (perform_action
        ⟨[⟨"app", "web", "/w", "/w/dc.yml", "stopped"⟩,
          ⟨"db", "web", "/w", "/w/dc.yml", "unknown"⟩,
          ⟨"x", "other", "/o", "/o/dc.yml", "running"⟩], 0, 3, "", []⟩
        "start" (Launch.failure "e")
        (fun _ _ => (Launch.failure "e", Launch.failure "e"))).1.services
      = [⟨"app", "web", "/w", "/w/dc.yml", "stopped"⟩,
         ⟨"db", "web", "/w", "/w/dc.yml", "stopped"⟩,
         ⟨"x", "other", "/o", "/o/dc.yml", "running"⟩]
    ∧ (perform_action
        ⟨[⟨"app", "web", "/w", "/w/dc.yml", "stopped"⟩,
          ⟨"db", "web", "/w", "/w/dc.yml", "unknown"⟩,
          ⟨"x", "other", "/o", "/o/dc.yml", "running"⟩], 0, 3, "", []⟩
        "start" (Launch.failure "e")
        (fun _ _ => (Launch.failure "e", Launch.failure "e"))).2
      = [ExtCall.action "/w" "app" "start", ExtCall.statusQuery "/w" "app",
         ExtCall.statusQuery "/w" "db"]
    ∧ (perform_action
        ⟨[⟨"app", "web", "/w", "/w/dc.yml", "stopped"⟩,
          ⟨"db", "web", "/w", "/w/dc.yml", "unknown"⟩,
          ⟨"x", "other", "/o", "/o/dc.yml", "running"⟩], 0, 3, "", []⟩
        "stop" (Launch.failure "e")
        (fun _ _ => (Launch.failure "e", Launch.failure "e"))).1.services
      = [⟨"app", "web", "/w", "/w/dc.yml", "stopped"⟩,
         ⟨"db", "web", "/w", "/w/dc.yml", "unknown"⟩,
         ⟨"x", "other", "/o", "/o/dc.yml", "running"⟩] := by
  have h := claim_start_project_others_single
    ⟨[⟨"app", "web", "/w", "/w/dc.yml", "stopped"⟩,
      ⟨"db", "web", "/w", "/w/dc.yml", "unknown"⟩,
      ⟨"x", "other", "/o", "/o/dc.yml", "running"⟩], 0, 3, "", []⟩
    0 ⟨"app", "web", "/w", "/w/dc.yml", "stopped"⟩
    (Launch.failure "e") (Launch.failure "e")
    (fun _ _ => (Launch.failure "e", Launch.failure "e"))
    (by decide) (by decide)
  refine ⟨?_, ?_, ?_⟩
  · rw [h.2.1]; decide
  · rw [h.2.2.1]; decide
  · rw [(h.2.2.2.1 "stop" (Or.inl rfl)).2.1]; decide

/-- Claim C9: toggling a selected service is gated by the same
in-progress check — a `loading` or `building` status rejects the toggle
before any dispatch, changing only the status-bar message and issuing no
command — and when admitted, a `running` status dispatches the `stop`
action while any other status dispatches the `start` action; in both
cases the corresponding action command is the first external call
issued. -/
theorem claim_toggle_dispatch (st : AppState) (i : Nat) (s : Service)
    (aEnv : Launch) (sEnv : StatusEnv)
    (hsel : get_selected st = some (i, s)) :
    ((s.status = "loading" ∨ s.status = "building") →
        action_toggle_service st aEnv sEnv
          = ({ st with statusMsg :=
              "Cannot toggle " ++ s.name ++ ": operation in progress" }, []))
    ∧ (s.status = "running" →
        action_toggle_service st aEnv sEnv
          = perform_action st "stop" aEnv sEnv
        ∧ (action_toggle_service st aEnv sEnv).2.take 1
            = [ExtCall.action s.project_path s.name "stop"])
    ∧ (¬(s.status = "loading" ∨ s.status = "building") →
        ¬s.status = "running" →
        action_toggle_service st aEnv sEnv
          = perform_action st "start" aEnv sEnv
        ∧ (action_toggle_service st aEnv sEnv).2.take 1
            = [ExtCall.action s.project_path s.name "start"]) := by
  refine ⟨?_, ?_, ?_⟩
  · intro h
    simp only [action_toggle_service, hsel]
    rw [if_pos h]
  · intro h
    have hgate : ¬(s.status = "loading" ∨ s.status = "building") := by
      rw [h]; decide
    have heq : action_toggle_service st aEnv sEnv
        = perform_action st "stop" aEnv sEnv := by
      simp only [action_toggle_service, hsel]
      rw [if_neg hgate, if_pos h]
    refine ⟨heq, ?_⟩
    rw [heq, perform_action_single_calls st i s "stop" aEnv sEnv hsel hgate
      (by decide) (Or.inl rfl)]
    rfl
  · intro hgate hrun
    have heq : action_toggle_service st aEnv sEnv
        = perform_action st "start" aEnv sEnv := by
      simp only [action_toggle_service, hsel]
      rw [if_neg hgate, if_neg hrun]
    refine ⟨heq, ?_⟩
    rw [heq, perform_action_start_calls st i s aEnv sEnv hsel hgate]
    rfl

theorem claim_toggle_dispatch_witness :
    action_toggle_service
      ⟨[⟨"app", "web", "/w", "/w/dc.yml", "running"⟩], 0, 1, "", []⟩
      (Launch.failure "e")
      (fun _ _ => (Launch.failure "e", Launch.failure "e"))
      = perform_action
          ⟨[⟨"app", "web", "/w", "/w/dc.yml", "running"⟩], 0, 1, "", []⟩
          "stop" (Launch.failure "e")
          (fun _ _ => (Launch.failure "e", Launch.failure "e"))
    ∧ (action_toggle_service
        ⟨[⟨"app", "web", "/w", "/w/dc.yml", "running"⟩], 0, 1, "", []⟩
        (Launch.failure "e")
        (fun _ _ => (Launch.failure "e", Launch.failure "e"))).2.take 1
      = [ExtCall.action "/w" "app" "stop"] := by
  have h := claim_toggle_dispatch
    ⟨[⟨"app", "web", "/w", "/w/dc.yml", "running"⟩], 0, 1, "", []⟩
    0 ⟨"app", "web", "/w", "/w/dc.yml", "running"⟩
    (Launch.failure "e")
    (fun _ _ => (Launch.failure "e", Launch.failure "e"))
    (by decide)
  exact h.2.1 rfl
